import Mathlib

/-!
Verification of the message-composition and encrypted-transport core of the
threema.gateway client, as exercised by examples/e2e.py.  The example file is
the only visible source; the core library it calls (key resolution, message
encoding, encryption, blob upload, submission) is modelled from the
specification, faithfully to its words, with collaborators (gateway directory,
blob endpoint, failure injection) made explicit as a `World` parameter and all
network traffic recorded as an observable event trace.
-/

namespace ThreemaGateway

/-- Byte strings are lists of naturals; entries are reduced mod 256 wherever
the modelled code produces actual wire bytes. -/
abbrev Bytes := List Nat

/-- Little-endian fixed-width encoding of a natural into `k` bytes. -/
def toBytesLE : Nat → Nat → Bytes
  | 0, _ => []
  | k + 1, n => (n % 256) :: toBytesLE k (n / 256)

/-- Little-endian decoding of a byte string into a natural. -/
def fromBytesLE : Bytes → Nat
  | [] => 0
  | b :: bs => b + 256 * fromBytesLE bs

/-- Modelled from the spec (§7): the typed error taxonomy of the core, which
is missing from the visible source (examples/e2e.py only imports and catches
`GatewayError`). -/
inductive GError
  | UnknownIdentity
  | KeyMismatch
  | PayloadTooLarge
  | BlobTooLarge
  | UploadFailed
  | EncryptionFailed
  | SubmissionFailed
  | TransportError
  deriving DecidableEq, Repr

/-- Modelled from the spec (§7): every typed error of the taxonomy is
catchable under the single umbrella category `GatewayError`, the one the
top-level example catches. -/
def isGatewayError : GError → Bool := fun _ => true

/-- Rendering type of a file attachment (§3). -/
inductive RenderingType
  | MEDIA
  | FILE
  | STICKER
  deriving DecidableEq, Repr

/-- A MIME type whose major type is image, audio or video (§4.5). -/
def isMediaMime (mime : String) : Bool :=
  "image/".toList.isPrefixOf mime.toList
    || "audio/".toList.isPrefixOf mime.toList
    || "video/".toList.isPrefixOf mime.toList

/-- Modelled from the spec (§4.5): rendering-type auto-detection from the
MIME type, used when no explicit rendering type is given; STICKER is never
auto-detected. -/
def autoDetectRendering (mime : String) : RenderingType :=
  if isMediaMime mime then .MEDIA else .FILE

/-- Modelled from the spec (§4.5): an explicitly supplied rendering type is
preserved; otherwise the type is auto-detected from the MIME type. -/
def resolveRendering (explicitRt : Option RenderingType) (mime : String) :
    RenderingType :=
  match explicitRt with
  | some rt => rt
  | none => autoDetectRendering mime

/-- Modelled from the spec (§4.4, §5): the cryptographically secure random
source, idealized as a counter so that no drawn value ever repeats. -/
structure Rand where
  counter : Nat
  deriving DecidableEq, Repr

/-- Draw one fresh value from the random source. -/
def fresh (g : Rand) : Nat × Rand := (g.counter, ⟨g.counter + 1⟩)

/-- 32-byte keys as byte strings. -/
abbrev Key := Bytes

/-- Modelled from the spec (§4.1): the fingerprint of a public key, compared
when checking a pinned key against a freshly fetched one. -/
def fingerprint (k : Key) : Bytes := k

/-- Modelled from the spec (§4.4): NaCl-style authenticated public-key
encryption (box).  The authentication tag is idealized as one leading value
binding sender, recipient, nonce and plaintext; the body is the nonce-keyed
stream encryption of the plaintext bytes mod 256. -/
def box (senderPrivate recipientPublic : Key) (nonce : Nat) (pt : Bytes) :
    Bytes :=
  (nonce + 1000003 * (senderPrivate.sum + 65537 * recipientPublic.sum)) ::
    pt.map (fun b => (b + nonce) % 256)

/-- Modelled from the spec (§4.4): `encrypt` draws a fresh random nonce per
invocation and boxes the plaintext under sender private key and recipient
public key, returning the nonce and the ciphertext together with the advanced
random source. -/
def encrypt (senderPrivate recipientPublic : Key) (pt : Bytes) (g : Rand) :
    (Nat × Bytes) × Rand :=
  let (nonce, g') := fresh g
  ((nonce, box senderPrivate recipientPublic nonce pt), g')

/-- The `k`-th invocation (0-based) in a chain of `encrypt` calls that all
share the same plaintext and keys, each call threading the random source
returned by the previous one. -/
def encryptChain (senderPrivate recipientPublic : Key) (pt : Bytes)
    (g : Rand) : Nat → (Nat × Bytes) × Rand
  | 0 => encrypt senderPrivate recipientPublic pt g
  | k + 1 =>
      encrypt senderPrivate recipientPublic pt
        (encryptChain senderPrivate recipientPublic pt g k).2

/-- A reference to an uploaded blob: endpoint-assigned content id (16 bytes),
the symmetric key generated at upload time (32 bytes) and the plaintext size
(a 32-bit value on the wire), per §3. -/
structure BlobRef where
  blobId : Bytes
  blobKey : Bytes
  size : Nat
  deriving DecidableEq, Repr

/-- Well-formedness of a blob reference: the fixed field widths of §4.3. -/
def BlobRef.wf (b : BlobRef) : Prop :=
  b.blobId.length = 16 ∧ b.blobKey.length = 32 ∧ b.size < 2 ^ 32

instance (b : BlobRef) : Decidable b.wf := by
  unfold BlobRef.wf; infer_instance

/-- Modelled from the spec (§3): the logical content of a message, polymorphic
over the variants Text, Image, Video and File, after any blobs have been
replaced by their references. -/
inductive MessagePayload
  | text (t : Bytes)
  | image (blob : BlobRef)
  | video (duration : Nat) (blob : BlobRef) (thumb : BlobRef)
  | file (blob : BlobRef) (thumb : Option BlobRef) (mime : Bytes)
      (caption : Option Bytes) (rt : RenderingType)
  deriving DecidableEq, Repr

/-- Valid payloads: field widths fit the fixed-width and length-prefixed
layout of §4.3. -/
def MessagePayload.wf : MessagePayload → Prop
  | .text _ => True
  | .image b => b.wf
  | .video d b th => d < 2 ^ 16 ∧ b.wf ∧ th.wf
  | .file b th mime cap _ =>
      b.wf ∧ (∀ t ∈ th, t.wf) ∧ mime.length < 2 ^ 16 ∧
        ∀ c ∈ cap, c.length < 2 ^ 16

instance (m : MessagePayload) : Decidable m.wf := by
  unfold MessagePayload.wf; cases m <;> infer_instance

/-- The one-byte type tag opening each variant's wire layout (§4.3). -/
def typeTag : MessagePayload → Nat
  | .text _ => 1
  | .image _ => 2
  | .video _ _ _ => 19
  | .file _ _ _ _ _ => 23

/-- Fixed-width wire layout of a blob reference: 16-byte id, 32-byte key,
4-byte little-endian size. -/
def encodeBlob (b : BlobRef) : Bytes :=
  b.blobId ++ b.blobKey ++ toBytesLE 4 b.size

/-- A variable-width field, 2-byte little-endian length followed by the
bytes. -/
def lenTagged (xs : Bytes) : Bytes := toBytesLE 2 xs.length ++ xs

/-- An optional field: one presence byte, then the field when present. -/
def optTagged (f : α → Bytes) : Option α → Bytes
  | none => [0]
  | some a => 1 :: f a

/-- One-byte wire value of a rendering type. -/
def rtByte : RenderingType → Nat
  | .FILE => 0
  | .MEDIA => 1
  | .STICKER => 2

/-- Modelled from the spec (§4.3): `encode` serializes a payload into its
variant's fixed binary layout — a one-byte type tag followed by the
type-specific fields, each fixed-width or length-prefixed.  Encoding is a
pure function of the payload: no I/O, deterministic. -/
def encodeMessage : MessagePayload → Bytes
  | .text t => 1 :: t
  | .image b => 2 :: encodeBlob b
  | .video d b th => 19 :: (toBytesLE 2 d ++ encodeBlob b ++ encodeBlob th)
  | .file b th mime cap rt =>
      23 :: (encodeBlob b ++ optTagged encodeBlob th ++ lenTagged mime ++
        optTagged lenTagged cap ++ [rtByte rt])

/-- Parse a fixed-width blob reference, returning it and the remaining
bytes. -/
def parseBlob (bs : Bytes) : Option (BlobRef × Bytes) :=
  if 52 ≤ bs.length then
    some (⟨bs.take 16, (bs.drop 16).take 32, fromBytesLE ((bs.drop 48).take 4)⟩,
      bs.drop 52)
  else none

/-- Parse a length-prefixed field. -/
def parseLen (bs : Bytes) : Option (Bytes × Bytes) :=
  if 2 ≤ bs.length then
    let n := fromBytesLE (bs.take 2)
    let body := bs.drop 2
    if n ≤ body.length then some (body.take n, body.drop n) else none
  else none

/-- Parse an optional field. -/
def parseOpt (p : Bytes → Option (α × Bytes)) : Bytes → Option (Option α × Bytes)
  | [] => none
  | b :: rest =>
      if b = 0 then some (none, rest)
      else if b = 1 then (p rest).map fun ar => (some ar.1, ar.2)
      else none

/-- Parse a rendering-type byte, which closes the File layout. -/
def parseRt : Bytes → Option RenderingType
  | [b] =>
      if b = 0 then some .FILE
      else if b = 1 then some .MEDIA
      else if b = 2 then some .STICKER
      else none
  | _ => none

/-- Modelled from the spec (§8): the decoder of the wire format, dispatching
on the type tag and reconstructing the variant's logical fields. -/
def decodeMessage : Bytes → Option MessagePayload
  | [] => none
  | tag :: rest =>
      if tag = 1 then some (.text rest)
      else if tag = 2 then
        (parseBlob rest).bind fun br =>
          if br.2 = [] then some (.image br.1) else none
      else if tag = 19 then
        if 2 ≤ rest.length then
          (parseBlob (rest.drop 2)).bind fun br =>
            (parseBlob br.2).bind fun tr =>
              if tr.2 = [] then
                some (.video (fromBytesLE (rest.take 2)) br.1 tr.1)
              else none
        else none
      else if tag = 23 then
        (parseBlob rest).bind fun br =>
          (parseOpt parseBlob br.2).bind fun tr =>
            (parseLen tr.2).bind fun mr =>
              (parseOpt parseLen mr.2).bind fun cr =>
                (parseRt cr.2).map fun rt =>
                  .file br.1 tr.1 mr.1 cr.1 rt
      else none

/-- The process-lifetime public-key cache, keyed by identity (§3). -/
abbrev KeyCache := List (String × Key)

/-- Look an identity up in an association list. -/
def assocFind (c : List (String × Key)) (idt : String) : Option Key :=
  (c.find? fun p => p.1 == idt).map Prod.snd

/-- Insert a binding into the cache. -/
def cacheInsert (c : KeyCache) (idt : String) (k : Key) : KeyCache :=
  (idt, k) :: c

/-- The recipient-key hint accepted by `resolve` (§4.1): nothing, a literal
key, or the content of a locally cached key file (file reading is a trivial
I/O wrapper out of scope per §6, so the hint carries the file's key). -/
inductive KeyHint
  | auto
  | literal (k : Key)
  | cachedFile (k : Key)
  deriving DecidableEq, Repr

/-- Network events observable at the gateway, in order of occurrence. -/
inductive NetEvent
  | keyLookup (idt : String)
  | blobUpload (data : Bytes)
  | submit (toId : String) (envelope : Bytes)
  deriving DecidableEq, Repr

/-- The external collaborators of the core, made explicit: the gateway's
identity directory, the configured size limits, the endpoint-assigned ids,
and failure injection for upload and submission transport. -/
structure World where
  directory : List (String × Key)
  maxMessageSize : Nat
  blobLimit : Nat
  nextBlobId : Nat
  msgId : String
  uploadOk : Bool
  submitOk : Bool
  deriving DecidableEq, Repr

/-- Modelled from the spec (§4.1): `resolve(identity, hint)`.  Resolution
order: a literal key first, then a cached key file, then a remote lookup.
A remote lookup result is inserted into the process cache keyed by the
identity; an existing (pinned) cache entry is never silently overwritten but
has its fingerprint checked against the freshly fetched key, failing with
`KeyMismatch` on disagreement — the check happens only when both a pinned
key and a fresh fetch are available.  Fails with `UnknownIdentity` when the
gateway reports no such identity.  Returns the resolved key, the updated
cache and the trace of network calls made. -/
def resolve (hint : KeyHint) (toId : String) (cache : KeyCache) (w : World) :
    Except GError Key × KeyCache × List NetEvent :=
  match hint with
  | .literal k => (.ok k, cache, [])
  | .cachedFile k => (.ok k, cache, [])
  | .auto =>
      match assocFind w.directory toId with
      | none => (.error .UnknownIdentity, cache, [.keyLookup toId])
      | some freshKey =>
          match assocFind cache toId with
          | none =>
              (.ok freshKey, cacheInsert cache toId freshKey, [.keyLookup toId])
          | some pinned =>
              if fingerprint pinned = fingerprint freshKey then
                (.ok pinned, cache, [.keyLookup toId])
              else
                (.error .KeyMismatch, cache, [.keyLookup toId])

/-- Modelled from the spec (§4.2): the idealized symmetric stream cipher a
blob is encrypted with before upload. -/
def encSym (k : Bytes) (data : Bytes) : Bytes :=
  data.map fun b => (b + k.sum) % 256

/-- Modelled from the spec (§4.2): one blob upload.  Generates a random
symmetric key, encrypts the bytes with it, uploads the ciphertext and returns
a reference holding the endpoint-assigned content id, the key material and
the plaintext size.  Fails with `BlobTooLarge` past the gateway's limit and
with `UploadFailed` on transport error, neither retried internally. -/
def upload1 (w : World) (g : Rand) (idNum : Nat) (data : Bytes) :
    Except GError (BlobRef × Rand) × List NetEvent :=
  if w.blobLimit < data.length then (.error .BlobTooLarge, [])
  else
    let (kv, g') := fresh g
    let symKey := toBytesLE 32 kv
    if w.uploadOk then
      (.ok (⟨toBytesLE 16 idNum, symKey, data.length⟩, g'),
        [.blobUpload (encSym symKey data)])
    else
      (.error .UploadFailed, [.blobUpload (encSym symKey data)])

/-- The message value constructed by the caller, before any upload: the
variant together with the raw bytes of its blobs. -/
inductive MessageSpec
  | text (t : Bytes)
  | image (data : Bytes)
  | video (duration : Nat) (data : Bytes) (thumb : Bytes)
  | file (data : Bytes) (thumb : Option Bytes) (mime : String)
      (caption : Option Bytes) (rt : Option RenderingType)
  deriving DecidableEq, Repr

/-- ASCII byte view of a string field. -/
def strBytes (s : String) : Bytes := s.toList.map Char.toNat

/-- The number of blob fields a variant uploads. -/
def blobCount : MessageSpec → Nat
  | .text _ => 0
  | .image _ => 1
  | .video _ _ _ => 2
  | .file _ th _ _ _ => match th with | none => 1 | some _ => 2

/-- A blob reference with no content, substituted where a variant has no
blob field. -/
def dummyRef : BlobRef := ⟨List.replicate 16 0, List.replicate 32 0, 0⟩

/-- Substitute the uploaded blob references into the logical payload (§4.5
step 3); the File variant's rendering type is resolved here, auto-detected
from the MIME type when not explicit. -/
def mkPayload (msg : MessageSpec) (mainRef thumbRef : BlobRef) :
    MessagePayload :=
  match msg with
  | .text t => .text t
  | .image _ => .image mainRef
  | .video dur _ _ => .video dur mainRef thumbRef
  | .file _ th mime cap rt =>
      .file mainRef (th.map fun _ => thumbRef) (strBytes mime) cap
        (resolveRendering rt mime)

/-- The length of the encoded payload, computed purely from the message value
(all blob fields have fixed width on the wire). -/
def encodedSize : MessageSpec → Nat
  | .text t => 1 + t.length
  | .image _ => 1 + 52
  | .video _ _ _ => 1 + 2 + 52 + 52
  | .file _ th mime cap _ =>
      1 + 52 + (match th with | none => 1 | some _ => 1 + 52) +
        (2 + (strBytes mime).length) +
        (match cap with | none => 1 | some c => 1 + 2 + c.length) + 1

/-- Modelled from the spec (§4.5, step 2): upload the blob fields of the
message, thumbnail first and then the main content, returning the main and
thumbnail references, the advanced random source and the upload trace. -/
def uploadStage (w : World) (g : Rand) (msg : MessageSpec) :
    Except GError (BlobRef × BlobRef × Rand) × List NetEvent :=
  match msg with
  | .text _ => (.ok (dummyRef, dummyRef, g), [])
  | .image d =>
      match upload1 w g w.nextBlobId d with
      | (.error e, tr) => (.error e, tr)
      | (.ok (r, g'), tr) => (.ok (r, dummyRef, g'), tr)
  | .video _ d th =>
      match upload1 w g w.nextBlobId th with
      | (.error e, tr) => (.error e, tr)
      | (.ok (thr, g'), tr1) =>
          match upload1 w g' (w.nextBlobId + 1) d with
          | (.error e, tr2) => (.error e, tr1 ++ tr2)
          | (.ok (mr, g''), tr2) => (.ok (mr, thr, g''), tr1 ++ tr2)
  | .file d th _ _ _ =>
      match th with
      | none =>
          match upload1 w g w.nextBlobId d with
          | (.error e, tr) => (.error e, tr)
          | (.ok (r, g'), tr) => (.ok (r, dummyRef, g'), tr)
      | some t =>
          match upload1 w g w.nextBlobId t with
          | (.error e, tr) => (.error e, tr)
          | (.ok (thr, g'), tr1) =>
              match upload1 w g' (w.nextBlobId + 1) d with
              | (.error e, tr2) => (.error e, tr1 ++ tr2)
              | (.ok (mr, g''), tr2) => (.ok (mr, thr, g''), tr1 ++ tr2)

/-- The states of the per-send orchestration state machine (§4.5). -/
inductive SendState
  | Built
  | KeyResolved
  | BlobsUploaded
  | Encrypted
  | Submitted
  | Failed
  deriving DecidableEq, Repr

instance {ε α : Type} [DecidableEq ε] [DecidableEq α] :
    DecidableEq (Except ε α) := fun x y =>
  match x, y with
  | .ok a, .ok b =>
      if h : a = b then isTrue (by rw [h])
      else isFalse fun hh => h (Except.ok.inj hh)
  | .error a, .error b =>
      if h : a = b then isTrue (by rw [h])
      else isFalse fun hh => h (Except.error.inj hh)
  | .ok _, .error _ => isFalse fun hh => Except.noConfusion hh
  | .error _, .ok _ => isFalse fun hh => Except.noConfusion hh

/-- The outcome of one `send()` call: the result (message id or typed
error), the final state of the state machine, the full ordered network
trace, the updated key cache and the advanced random source. -/
structure SendOutcome where
  result : Except GError String
  final : SendState
  trace : List NetEvent
  cache : KeyCache
  rng : Rand
  deriving DecidableEq, Repr

/-- Modelled from the spec (§4.5, §8): the `send()` orchestration.  The
encoded-payload size is validated first — encoding is pure, so this happens
before any network call, failing with `PayloadTooLarge` (§8).  Then the
strictly sequential pipeline runs: resolve the recipient key, upload blobs
(thumbnail first), encode, encrypt with a fresh nonce, and submit the
envelope `nonce ++ ciphertext`.  Any failure is terminal: the machine moves
to `Failed` and no remaining transition is attempted; each gateway operation
is attempted at most once. -/
def send (senderPrivate : Key) (toId : String) (hint : KeyHint)
    (msg : MessageSpec) (cache : KeyCache) (w : World) (g : Rand) :
    SendOutcome :=
  if w.maxMessageSize < encodedSize msg then
    ⟨.error .PayloadTooLarge, .Failed, [], cache, g⟩
  else
    match resolve hint toId cache w with
    | (.error e, c', tr) => ⟨.error e, .Failed, tr, c', g⟩
    | (.ok pk, c', tr1) =>
        match uploadStage w g msg with
        | (.error e, tr2) => ⟨.error e, .Failed, tr1 ++ tr2, c', g⟩
        | (.ok (mr, thr, g'), tr2) =>
            let payload := encodeMessage (mkPayload msg mr thr)
            let ng := encrypt senderPrivate pk payload g'
            let env := toBytesLE 24 ng.1.1 ++ ng.1.2
            if w.submitOk then
              ⟨.ok w.msgId, .Submitted,
                tr1 ++ tr2 ++ [.submit toId env], c', ng.2⟩
            else
              ⟨.error .SubmissionFailed, .Failed,
                tr1 ++ tr2 ++ [.submit toId env], c', ng.2⟩

/-- Is the event a key lookup? -/
def isLookupEv : NetEvent → Bool
  | .keyLookup _ => true
  | _ => false

/-- Is the event a blob upload? -/
def isUploadEv : NetEvent → Bool
  | .blobUpload _ => true
  | _ => false

/-- Is the event a message submission? -/
def isSubmitEv : NetEvent → Bool
  | .submit _ _ => true
  | _ => false

/-- A sample sender private key. -/
def sampleKeyA : Key := List.replicate 32 3

/-- A sample recipient public key. -/
def sampleKeyB : Key := List.replicate 32 7

/-- A sample healthy world: one directory entry, generous limits, uploads and
submission succeeding. -/
def sampleWorld : World :=
  ⟨[("ECHOECHO", sampleKeyB)], 4000, 100000, 5, "msg-1", true, true⟩

/-- A sample world whose submission endpoint rejects the envelope. -/
def sampleWorldFail : World :=
  ⟨[("ECHOECHO", sampleKeyB)], 4000, 100000, 5, "msg-1", true, false⟩

/-- A sample valid File payload used to exercise the decoder. -/
def sampleFilePayload : MessagePayload :=
  .file ⟨List.replicate 16 1, List.replicate 32 2, 10⟩ (some dummyRef)
    (strBytes "image/jpeg") (some [65, 66]) .MEDIA

/-- Is the character a hexadecimal digit? -/
def isHexChar (c : Char) : Bool :=
  c.isDigit || (('a' ≤ c) && (c ≤ 'f')) || (('A' ≤ c) && (c ≤ 'F'))

/-- The type tag opening a public-key literal at the interface. -/
def pubTag : List Char := "public:".toList

/-- The type tag opening a private-key literal at the interface. -/
def privTag : List Char := "private:".toList

/-- Modelled from the spec (§6, and the literals of examples/e2e.py): a key
literal is its kind's type tag followed by the 64 hex characters of the
32-byte key; anything else is rejected. -/
def parseKeyHex (tag cs : List Char) : Option (List Char) :=
  if cs.take tag.length = tag then
    let hex := cs.drop tag.length
    if hex.length = 64 ∧ hex.all isHexChar = true then some hex else none
  else none

/-- Accept a `public:`-tagged key literal, as supplied to a message
constructor. -/
def parsePublicKey (s : String) : Option (List Char) :=
  parseKeyHex pubTag s.toList

/-- Accept a `private:`-tagged key literal, as supplied to `Connection`. -/
def parsePrivateKey (s : String) : Option (List Char) :=
  parseKeyHex privTag s.toList

theorem toBytesLE_length (k n : Nat) : (toBytesLE k n).length = k := by
  induction k generalizing n with
  | zero => rfl
  | succ k ih => simp [toBytesLE, ih]

theorem fromBytesLE_toBytesLE (k n : Nat) (h : n < 256 ^ k) :
    fromBytesLE (toBytesLE k n) = n := by
  induction k generalizing n with
  | zero =>
    simp [toBytesLE, fromBytesLE]
    omega
  | succ k ih =>
    have hdiv : n / 256 < 256 ^ k := by
      rw [Nat.div_lt_iff_lt_mul (by norm_num)]
      calc n < 256 ^ (k + 1) := h
        _ = 256 ^ k * 256 := by ring
    simp [toBytesLE, fromBytesLE, ih _ hdiv]
    omega

theorem encryptChain_state (sk pk : Key) (pt : Bytes) (g : Rand) (k : Nat) :
    (encryptChain sk pk pt g k).2.counter = g.counter + k + 1 := by
  induction k with
  | zero => rfl
  | succ k ih => simp [encryptChain, encrypt, fresh, ih]; omega

theorem encryptChain_nonce (sk pk : Key) (pt : Bytes) (g : Rand) (k : Nat) :
    (encryptChain sk pk pt g k).1.1 = g.counter + k := by
  cases k with
  | zero => rfl
  | succ k => simp [encryptChain, encrypt, fresh, encryptChain_state]; omega

theorem encodeBlob_length (b : BlobRef) (h : b.wf) :
    (encodeBlob b).length = 52 := by
  obtain ⟨h1, h2, _⟩ := h
  simp [encodeBlob, h1, h2, toBytesLE_length]

theorem parseBlob_encodeBlob (b : BlobRef) (rest : Bytes) (h : b.wf) :
    parseBlob (encodeBlob b ++ rest) = some (b, rest) := by
  obtain ⟨h1, h2, h3⟩ := h
  have e1 : encodeBlob b ++ rest =
      b.blobId ++ (b.blobKey ++ (toBytesLE 4 b.size ++ rest)) := by
    simp [encodeBlob]
  have e2 : encodeBlob b ++ rest =
      (b.blobId ++ b.blobKey) ++ (toBytesLE 4 b.size ++ rest) := by
    simp [encodeBlob]
  have hl : (encodeBlob b).length = 52 := encodeBlob_length b ⟨h1, h2, h3⟩
  have hlen : 52 ≤ (encodeBlob b ++ rest).length := by
    simp [hl]
  have t16 : (encodeBlob b ++ rest).take 16 = b.blobId := by
    rw [e1]; exact List.take_left' h1
  have d16 : (encodeBlob b ++ rest).drop 16 =
      b.blobKey ++ (toBytesLE 4 b.size ++ rest) := by
    rw [e1]; exact List.drop_left' h1
  have t32 : ((encodeBlob b ++ rest).drop 16).take 32 = b.blobKey := by
    rw [d16]; exact List.take_left' h2
  have d48 : (encodeBlob b ++ rest).drop 48 = toBytesLE 4 b.size ++ rest := by
    rw [e2]; exact List.drop_left' (by simp [h1, h2])
  have t4 : ((encodeBlob b ++ rest).drop 48).take 4 = toBytesLE 4 b.size := by
    rw [d48]; exact List.take_left' (toBytesLE_length 4 _)
  have d52 : (encodeBlob b ++ rest).drop 52 = rest :=
    List.drop_left' hl
  have hv : fromBytesLE (toBytesLE 4 b.size) = b.size :=
    fromBytesLE_toBytesLE 4 b.size (by norm_num at h3 ⊢; exact h3)
  simp only [parseBlob]
  rw [if_pos hlen, t16, t32, t4, d52, hv]

theorem parseLen_lenTagged (xs rest : Bytes) (h : xs.length < 2 ^ 16) :
    parseLen (lenTagged xs ++ rest) = some (xs, rest) := by
  have e1 : lenTagged xs ++ rest = toBytesLE 2 xs.length ++ (xs ++ rest) := by
    simp [lenTagged]
  have hlen : 2 ≤ (lenTagged xs ++ rest).length := by
    simp [lenTagged, toBytesLE_length]
  have t2 : (lenTagged xs ++ rest).take 2 = toBytesLE 2 xs.length := by
    rw [e1]; exact List.take_left' (toBytesLE_length 2 _)
  have d2 : (lenTagged xs ++ rest).drop 2 = xs ++ rest := by
    rw [e1]; exact List.drop_left' (toBytesLE_length 2 _)
  have hv : fromBytesLE (toBytesLE 2 xs.length) = xs.length :=
    fromBytesLE_toBytesLE 2 xs.length (by norm_num at h ⊢; exact h)
  have hle : xs.length ≤ (xs ++ rest).length := by simp
  simp only [parseLen]
  rw [if_pos hlen, t2, d2, hv, if_pos hle, List.take_left, List.drop_left]

theorem parseOpt_optTagged {α : Type} (p : Bytes → Option (α × Bytes))
    (f : α → Bytes) (o : Option α) (rest : Bytes)
    (h : ∀ a, o = some a → p (f a ++ rest) = some (a, rest)) :
    parseOpt p (optTagged f o ++ rest) = some (o, rest) := by
  cases o with
  | none => simp [optTagged, parseOpt]
  | some a => simp [optTagged, parseOpt, h a rfl]

theorem parseRt_rtByte (rt : RenderingType) :
    parseRt [rtByte rt] = some rt := by
  cases rt <;> simp [rtByte, parseRt]

/-- Decoding the encoded bytes of a valid payload reconstructs the payload's
logical fields exactly, for every variant. -/
theorem decode_encode (m : MessagePayload) (h : m.wf) :
    decodeMessage (encodeMessage m) = some m := by
  cases m with
  | text t => simp [encodeMessage, decodeMessage]
  | image b =>
      have hb : parseBlob (encodeBlob b ++ []) = some (b, []) :=
        parseBlob_encodeBlob b [] h
      simp at hb
      simp [encodeMessage, decodeMessage, hb]
  | video d b th =>
      obtain ⟨hd, hb, hth⟩ := h
      have d2 : (toBytesLE 2 d ++ (encodeBlob b ++ encodeBlob th)).drop 2 =
          encodeBlob b ++ encodeBlob th :=
        List.drop_left' (toBytesLE_length 2 d)
      have t2 : (toBytesLE 2 d ++ (encodeBlob b ++ encodeBlob th)).take 2 =
          toBytesLE 2 d :=
        List.take_left' (toBytesLE_length 2 d)
      have hpb : parseBlob (encodeBlob b ++ encodeBlob th) =
          some (b, encodeBlob th) := parseBlob_encodeBlob b _ hb
      have hpth : parseBlob (encodeBlob th ++ []) = some (th, []) :=
        parseBlob_encodeBlob th [] hth
      simp at hpth
      have hv : fromBytesLE (toBytesLE 2 d) = d :=
        fromBytesLE_toBytesLE 2 d (by norm_num at hd ⊢; exact hd)
      simp [encodeMessage, decodeMessage, d2, t2, hpb, hpth, hv,
        toBytesLE_length, encodeBlob_length b hb, encodeBlob_length th hth]
  | file b th mime cap rt =>
      obtain ⟨hb, hth, hm, hc⟩ := h
      have hpb : parseBlob (encodeBlob b ++
          (optTagged encodeBlob th ++ (lenTagged mime ++
            (optTagged lenTagged cap ++ [rtByte rt])))) =
          some (b, optTagged encodeBlob th ++ (lenTagged mime ++
            (optTagged lenTagged cap ++ [rtByte rt]))) :=
        parseBlob_encodeBlob b _ hb
      have hpth : parseOpt parseBlob (optTagged encodeBlob th ++
          (lenTagged mime ++ (optTagged lenTagged cap ++ [rtByte rt]))) =
          some (th, lenTagged mime ++ (optTagged lenTagged cap ++ [rtByte rt])) :=
        parseOpt_optTagged _ _ _ _
          (fun a ha => parseBlob_encodeBlob a _ (hth a ha))
      have hpm : parseLen (lenTagged mime ++
          (optTagged lenTagged cap ++ [rtByte rt])) =
          some (mime, optTagged lenTagged cap ++ [rtByte rt]) :=
        parseLen_lenTagged mime _ hm
      have hpc : parseOpt parseLen (optTagged lenTagged cap ++ [rtByte rt]) =
          some (cap, [rtByte rt]) :=
        parseOpt_optTagged _ _ _ _
          (fun c hcm => parseLen_lenTagged c _ (hc c hcm))
      simp [encodeMessage, decodeMessage, List.append_assoc] at hpb ⊢
      simp [hpb, hpth, hpm, hpc, parseRt_rtByte]

theorem resolve_trace_shape (hint : KeyHint) (toId : String)
    (cache : KeyCache) (w : World) :
    (resolve hint toId cache w).2.2 = [] ∨
      (resolve hint toId cache w).2.2 = [.keyLookup toId] := by
  cases hint with
  | literal k => exact Or.inl rfl
  | cachedFile k => exact Or.inl rfl
  | auto =>
      rcases hd : assocFind w.directory toId with _ | k
      · right; simp [resolve, hd]
      · rcases hc : assocFind cache toId with _ | p
        · right; simp [resolve, hd, hc]
        · by_cases hf : fingerprint p = fingerprint k <;>
            · right; simp [resolve, hd, hc, hf]

theorem upload1_trace_shape (w : World) (g : Rand) (idNum : Nat)
    (data : Bytes) :
    (upload1 w g idNum data).2 = [] ∨
      ∃ d, (upload1 w g idNum data).2 = [.blobUpload d] := by
  by_cases h1 : w.blobLimit < data.length
  · left; simp [upload1, h1]
  · by_cases h2 : w.uploadOk
    · right
      refine ⟨encSym (toBytesLE 32 g.counter) data, ?_⟩
      simp [upload1, h1, h2, fresh]
    · right
      refine ⟨encSym (toBytesLE 32 g.counter) data, ?_⟩
      simp [upload1, h1, h2, fresh]

theorem uploadStage_trace_shape (w : World) (g : Rand) (msg : MessageSpec) :
    (uploadStage w g msg).2 = [] ∨
      (∃ d, (uploadStage w g msg).2 = [.blobUpload d] ∧ 1 ≤ blobCount msg) ∨
      (∃ d1 d2, (uploadStage w g msg).2 = [.blobUpload d1, .blobUpload d2] ∧
        blobCount msg = 2) := by
  cases msg with
  | text t => exact Or.inl rfl
  | image d =>
      rcases h1 : upload1 w g w.nextBlobId d with ⟨res, tr⟩
      have hs := upload1_trace_shape w g w.nextBlobId d
      rw [h1] at hs; simp at hs
      cases res with
      | error e =>
          rcases hs with hs | ⟨dd, hs⟩
          · exact Or.inl (by simp [uploadStage, h1, hs])
          · exact Or.inr (Or.inl ⟨dd, by simp [uploadStage, h1, hs, blobCount]⟩)
      | ok pr =>
          rcases hs with hs | ⟨dd, hs⟩
          · exact Or.inl (by simp [uploadStage, h1, hs])
          · exact Or.inr (Or.inl ⟨dd, by simp [uploadStage, h1, hs, blobCount]⟩)
  | video dur d th =>
      rcases h1 : upload1 w g w.nextBlobId th with ⟨res1, tr1⟩
      have hs1 := upload1_trace_shape w g w.nextBlobId th
      rw [h1] at hs1; simp at hs1
      cases res1 with
      | error e =>
          rcases hs1 with hs1 | ⟨dd, hs1⟩
          · exact Or.inl (by simp [uploadStage, h1, hs1])
          · exact Or.inr (Or.inl ⟨dd, by simp [uploadStage, h1, hs1, blobCount]⟩)
      | ok pr =>
          rcases pr with ⟨thr, g'⟩
          rcases h2 : upload1 w g' (w.nextBlobId + 1) d with ⟨res2, tr2⟩
          have hs2 := upload1_trace_shape w g' (w.nextBlobId + 1) d
          rw [h2] at hs2; simp at hs2
          have htr : (uploadStage w g (.video dur d th)).2 = tr1 ++ tr2 := by
            cases res2 <;> simp [uploadStage, h1, h2]
          rcases hs1 with hs1 | ⟨dd1, hs1⟩ <;> rcases hs2 with hs2 | ⟨dd2, hs2⟩
          · exact Or.inl (by simp [htr, hs1, hs2])
          · exact Or.inr (Or.inl ⟨dd2, by simp [htr, hs1, hs2, blobCount]⟩)
          · exact Or.inr (Or.inl ⟨dd1, by simp [htr, hs1, hs2, blobCount]⟩)
          · exact Or.inr (Or.inr ⟨dd1, dd2, by simp [htr, hs1, hs2, blobCount]⟩)
  | file d th mime cap rt =>
      cases th with
      | none =>
          rcases h1 : upload1 w g w.nextBlobId d with ⟨res, tr⟩
          have hs := upload1_trace_shape w g w.nextBlobId d
          rw [h1] at hs; simp at hs
          cases res with
          | error e =>
              rcases hs with hs | ⟨dd, hs⟩
              · exact Or.inl (by simp [uploadStage, h1, hs])
              · exact Or.inr (Or.inl ⟨dd,
                  by simp [uploadStage, h1, hs, blobCount]⟩)
          | ok pr =>
              rcases hs with hs | ⟨dd, hs⟩
              · exact Or.inl (by simp [uploadStage, h1, hs])
              · exact Or.inr (Or.inl ⟨dd,
                  by simp [uploadStage, h1, hs, blobCount]⟩)
      | some t =>
          rcases h1 : upload1 w g w.nextBlobId t with ⟨res1, tr1⟩
          have hs1 := upload1_trace_shape w g w.nextBlobId t
          rw [h1] at hs1; simp at hs1
          cases res1 with
          | error e =>
              rcases hs1 with hs1 | ⟨dd, hs1⟩
              · exact Or.inl (by simp [uploadStage, h1, hs1])
              · exact Or.inr (Or.inl ⟨dd,
                  by simp [uploadStage, h1, hs1, blobCount]⟩)
          | ok pr =>
              rcases pr with ⟨thr, g'⟩
              rcases h2 : upload1 w g' (w.nextBlobId + 1) d with ⟨res2, tr2⟩
              have hs2 := upload1_trace_shape w g' (w.nextBlobId + 1) d
              rw [h2] at hs2; simp at hs2
              have htr : (uploadStage w g (.file d (some t) mime cap rt)).2 =
                  tr1 ++ tr2 := by
                cases res2 <;> simp [uploadStage, h1, h2]
              rcases hs1 with hs1 | ⟨dd1, hs1⟩ <;>
                rcases hs2 with hs2 | ⟨dd2, hs2⟩
              · exact Or.inl (by simp [htr, hs1, hs2])
              · exact Or.inr (Or.inl ⟨dd2,
                  by simp [htr, hs1, hs2, blobCount]⟩)
              · exact Or.inr (Or.inl ⟨dd1,
                  by simp [htr, hs1, hs2, blobCount]⟩)
              · exact Or.inr (Or.inr ⟨dd1, dd2,
                  by simp [htr, hs1, hs2, blobCount]⟩)

theorem uploadStage_events (w : World) (g : Rand) (msg : MessageSpec) :
    ∀ e ∈ (uploadStage w g msg).2, isUploadEv e = true := by
  intro e he
  rcases uploadStage_trace_shape w g msg with h | ⟨d, h, _⟩ | ⟨d1, d2, h, _⟩ <;>
    rw [h] at he <;> simp at he
  · subst he; rfl
  · rcases he with he | he <;> subst he <;> rfl

theorem uploadStage_len (w : World) (g : Rand) (msg : MessageSpec) :
    (uploadStage w g msg).2.length ≤ blobCount msg := by
  rcases uploadStage_trace_shape w g msg with h | ⟨d, h, hc⟩ | ⟨d1, d2, h, hc⟩ <;>
    rw [h] <;> simp <;> omega

theorem encodeMessage_length (msg : MessageSpec) (mr thr : BlobRef)
    (hmr : mr.wf) (hthr : thr.wf) :
    (encodeMessage (mkPayload msg mr thr)).length = encodedSize msg := by
  cases msg with
  | text t => simp [encodeMessage, mkPayload, encodedSize]; omega
  | image d =>
      simp [encodeMessage, mkPayload, encodedSize, encodeBlob_length mr hmr]
  | video dur d th =>
      simp [encodeMessage, mkPayload, encodedSize, encodeBlob_length mr hmr,
        encodeBlob_length thr hthr, toBytesLE_length]
  | file d th mime cap rt =>
      cases th <;> cases cap <;>
        simp [encodeMessage, mkPayload, encodedSize, optTagged, lenTagged,
          encodeBlob_length mr hmr, encodeBlob_length thr hthr,
          toBytesLE_length] <;> omega

theorem box_nonce_inj (sk pk : Key) (pt : Bytes) (n1 n2 : Nat)
    (h : box sk pk n1 pt = box sk pk n2 pt) : n1 = n2 := by
  simp [box] at h
  omega

theorem encryptChain_ct (sk pk : Key) (pt : Bytes) (g : Rand) (k : Nat) :
    (encryptChain sk pk pt g k).1.2 = box sk pk (g.counter + k) pt := by
  cases k with
  | zero => simp [encryptChain, encrypt, fresh]
  | succ k =>
      simp [encryptChain, encrypt, fresh, encryptChain_state]
      have harg : g.counter + k + 1 = g.counter + (k + 1) := by omega
      rw [harg]

/-- C1: two distinct invocations of `encrypt` with the same plaintext, the
same sender private key and the same recipient public key return different
nonces and different ciphertexts — the nonce is drawn fresh per invocation
from the secure source and is never reused across calls. -/
theorem encrypt_fresh_nonce_per_call (sk pk : Key) (pt : Bytes) (g : Rand)
    (i j : Nat) (h : i ≠ j) :
    (encryptChain sk pk pt g i).1.1 ≠ (encryptChain sk pk pt g j).1.1 ∧
    (encryptChain sk pk pt g i).1.2 ≠ (encryptChain sk pk pt g j).1.2 := by
  constructor
  · rw [encryptChain_nonce, encryptChain_nonce]
    omega
  · rw [encryptChain_ct, encryptChain_ct]
    intro hc
    exact h (by have := box_nonce_inj sk pk pt _ _ hc; omega)

theorem encrypt_fresh_nonce_per_call_w :
    (encryptChain [1] [2] [3] ⟨0⟩ 0).1.1 ≠ (encryptChain [1] [2] [3] ⟨0⟩ 1).1.1 ∧
    (encryptChain [1] [2] [3] ⟨0⟩ 0).1.2 ≠ (encryptChain [1] [2] [3] ⟨0⟩ 1).1.2 :=
  encrypt_fresh_nonce_per_call [1] [2] [3] ⟨0⟩ 0 1 (by decide)

/-- C2: a message whose encoded payload exceeds the configured maximum size
fails with `PayloadTooLarge` before any network call — the outcome carries an
empty network trace, the unchanged cache and the untouched random source;
encoding is a pure function, performing no I/O. -/
theorem send_payload_too_large (sk : Key) (toId : String) (hint : KeyHint)
    (msg : MessageSpec) (cache : KeyCache) (w : World) (g : Rand)
    (mr thr : BlobRef) (hmr : mr.wf) (hthr : thr.wf)
    (h : w.maxMessageSize < (encodeMessage (mkPayload msg mr thr)).length) :
    send sk toId hint msg cache w g =
      ⟨.error .PayloadTooLarge, .Failed, [], cache, g⟩ := by
  rw [encodeMessage_length msg mr thr hmr hthr] at h
  simp [send, h]

theorem send_payload_too_large_w :
    send [] "AAAAAAAA" .auto (.text (List.replicate 5 0)) []
        ⟨[], 3, 10, 0, "m", true, true⟩ ⟨0⟩ =
      ⟨.error .PayloadTooLarge, .Failed, [], [], ⟨0⟩⟩ :=
  send_payload_too_large [] "AAAAAAAA" .auto (.text (List.replicate 5 0)) []
    ⟨[], 3, 10, 0, "m", true, true⟩ ⟨0⟩ dummyRef dummyRef
    (by decide) (by decide) (by decide)

/-- C3: `resolve(identity, literalKey)` performs no network call and returns
exactly the literal key, leaving the cache untouched — the literal takes
precedence over every other source. -/
theorem resolve_literal_no_network (k : Key) (toId : String)
    (cache : KeyCache) (w : World) :
    resolve (.literal k) toId cache w = (.ok k, cache, []) := rfl

/-- C4: with no explicit rendering type, a File message's rendering type is
auto-detected from the MIME type — image, audio or video MIME gives MEDIA,
any other MIME gives FILE, and STICKER is never auto-detected; an explicit
STICKER is preserved regardless of MIME. -/
theorem rendering_type_auto_detect :
    (∀ mime, isMediaMime mime = true → resolveRendering none mime = .MEDIA) ∧
    (∀ mime, isMediaMime mime = false → resolveRendering none mime = .FILE) ∧
    (∀ mime, autoDetectRendering mime ≠ .STICKER) ∧
    (∀ mime, resolveRendering (some .STICKER) mime = .STICKER) := by
  refine ⟨fun mime h => ?_, fun mime h => ?_, fun mime => ?_, fun mime => rfl⟩
  · simp [resolveRendering, autoDetectRendering, h]
  · simp [resolveRendering, autoDetectRendering, h]
  · by_cases h : isMediaMime mime <;> simp [autoDetectRendering, h]

theorem rendering_type_auto_detect_w :
    resolveRendering none "image/jpeg" = .MEDIA ∧
    resolveRendering none "application/pdf" = .FILE ∧
    resolveRendering (some .STICKER) "image/png" = .STICKER :=
  ⟨rendering_type_auto_detect.1 "image/jpeg" (by decide),
   rendering_type_auto_detect.2.1 "application/pdf" (by decide),
   rendering_type_auto_detect.2.2.2 "image/png"⟩

/-- C6: encoding is deterministic — equal payloads give equal bytes — and,
for every variant and every valid payload, decoding the encoded bytes
reconstructs the original logical fields exactly. -/
theorem encode_deterministic_decode_inverse (m m2 : MessagePayload)
    (hm : m.wf) :
    (m = m2 → encodeMessage m = encodeMessage m2) ∧
    decodeMessage (encodeMessage m) = some m :=
  ⟨fun h => by rw [h], decode_encode m hm⟩

theorem encode_deterministic_decode_inverse_w :
    decodeMessage (encodeMessage sampleFilePayload) = some sampleFilePayload :=
  (encode_deterministic_decode_inverse sampleFilePayload sampleFilePayload
    (by decide)).2

/-- C10: key literals at the public interface are type-prefixed hex strings.
A `public:` tag followed by 64 hexadecimal characters is accepted as a
recipient public key (the hex body is returned), a `private:` tag likewise
for the sender private key, and a literal that does not start with the
expected tag is not accepted as that kind of key. -/
theorem key_literal_format :
    (∀ (s : String) (hex : List Char), s.toList = pubTag ++ hex →
      hex.length = 64 → hex.all isHexChar = true →
      parsePublicKey s = some hex) ∧
    (∀ s : String, ¬ pubTag.isPrefixOf s.toList = true →
      parsePublicKey s = none) ∧
    (∀ (s : String) (hex : List Char), s.toList = privTag ++ hex →
      hex.length = 64 → hex.all isHexChar = true →
      parsePrivateKey s = some hex) ∧
    (∀ s : String, ¬ privTag.isPrefixOf s.toList = true →
      parsePrivateKey s = none) := by
  have accept : ∀ (tag : List Char) (s : String) (hex : List Char),
      s.toList = tag ++ hex → hex.length = 64 → hex.all isHexChar = true →
      parseKeyHex tag s.toList = some hex := by
    intro tag s hex hs hl hh
    rw [hs]
    unfold parseKeyHex
    rw [if_pos (List.take_left tag hex), List.drop_left]
    simp [hl, hh]
  have reject : ∀ (tag : List Char) (s : String),
      ¬ tag.isPrefixOf s.toList = true → parseKeyHex tag s.toList = none := by
    intro tag s hnp
    unfold parseKeyHex
    rw [if_neg]
    intro hteq
    apply hnp
    rw [List.isPrefixOf_iff_prefix]
    refine ⟨s.toList.drop tag.length, ?_⟩
    have hsplit := List.take_append_drop tag.length s.toList
    rw [hteq] at hsplit
    exact hsplit
  exact ⟨fun s hex hs hl hh => accept pubTag s hex hs hl hh,
    fun s h => reject pubTag s h,
    fun s hex hs hl hh => accept privTag s hex hs hl hh,
    fun s h => reject privTag s h⟩

theorem key_literal_format_w :
    parsePublicKey
        "public:4a6a1b34dcef15d43cb74de2fd36091be99fbbaf126d099d47d83d919712c72b" =
      some ("4a6a1b34dcef15d43cb74de2fd36091be99fbbaf126d099d47d83d919712c72b".toList) ∧
    parsePublicKey
        "private:4a6a1b34dcef15d43cb74de2fd36091be99fbbaf126d099d47d83d919712c72b" =
      none :=
  ⟨key_literal_format.1 _ _ (by decide) (by decide) (by decide),
   key_literal_format.2.1 _ (by decide)⟩

/-- C8: resolve's remote-lookup semantics.  A remote lookup with no pinned
cache entry inserts the fetched key into the process cache keyed by the
identity; `UnknownIdentity` is returned exactly when the gateway directory
has no entry for the identity; `KeyMismatch` is returned exactly when a
pinned key's fingerprint differs from the freshly fetched one, and only when
both a pinned key and a fresh fetch are available; a pinned key is never
silently overwritten. -/
theorem resolve_remote_semantics (toId : String) (cache : KeyCache)
    (w : World) :
    (∀ k, assocFind w.directory toId = some k →
      assocFind cache toId = none →
      resolve .auto toId cache w =
        (.ok k, cacheInsert cache toId k, [.keyLookup toId])) ∧
    ((resolve .auto toId cache w).1 = .error .UnknownIdentity ↔
      assocFind w.directory toId = none) ∧
    (∀ p, assocFind cache toId = some p →
      ((resolve .auto toId cache w).1 = .error .KeyMismatch ↔
        ∃ f, assocFind w.directory toId = some f ∧
          fingerprint p ≠ fingerprint f)) ∧
    ((resolve .auto toId cache w).1 = .error .KeyMismatch →
      ∃ p f, assocFind cache toId = some p ∧
        assocFind w.directory toId = some f) ∧
    (∀ p, assocFind cache toId = some p →
      (resolve .auto toId cache w).2.1 = cache) := by
  rcases hd : assocFind w.directory toId with _ | f
  · refine ⟨?_, ?_, ?_, ?_, ?_⟩ <;> simp [resolve, hd]
  · rcases hc : assocFind cache toId with _ | p
    · refine ⟨?_, ?_, ?_, ?_, ?_⟩ <;> simp [resolve, hd, hc]
    · by_cases hf : fingerprint p = fingerprint f
      · refine ⟨?_, ?_, ?_, ?_, ?_⟩ <;> simp [resolve, hd, hc, hf]
      · refine ⟨?_, ?_, ?_, ?_, ?_⟩ <;> simp [resolve, hd, hc, hf]

theorem resolve_remote_semantics_w :
    resolve .auto "ECHOECHO" []
        ⟨[("ECHOECHO", [7])], 0, 0, 0, "m", true, true⟩ =
      (.ok [7], cacheInsert [] "ECHOECHO" [7], [.keyLookup "ECHOECHO"]) :=
  (resolve_remote_semantics "ECHOECHO" []
      ⟨[("ECHOECHO", [7])], 0, 0, 0, "m", true, true⟩).1
    [7] (by decide) (by decide)

/-- C7: the encoded payload of every variant begins with its one-byte type
tag, and every envelope submitted to the gateway is exactly the
concatenation of the nonce and the ciphertext obtained by boxing the encoded
payload. -/
theorem wire_format :
    (∀ m : MessagePayload, (encodeMessage m).head? = some (typeTag m)) ∧
    (∀ (sk : Key) (toId : String) (hint : KeyHint) (msg : MessageSpec)
      (cache : KeyCache) (w : World) (g : Rand) (tid : String) (env : Bytes),
      NetEvent.submit tid env ∈ (send sk toId hint msg cache w g).trace →
      ∃ pk n mr thr, env = toBytesLE 24 n ++
        box sk pk n (encodeMessage (mkPayload msg mr thr))) := by
  constructor
  · intro m; cases m <;> rfl
  · intro sk toId hint msg cache w g tid env hmem
    by_cases hsz : w.maxMessageSize < encodedSize msg
    · simp [send, hsz] at hmem
    · rcases hres : resolve hint toId cache w with ⟨res, c', tr1⟩
      have htr1 := resolve_trace_shape hint toId cache w
      rw [hres] at htr1
      simp at htr1
      cases res with
      | error e =>
          simp [send, hsz, hres] at hmem
          rcases htr1 with h | h <;> rw [h] at hmem <;> simp at hmem
      | ok pk =>
          rcases hup : uploadStage w g msg with ⟨ures, tr2⟩
          have hue := uploadStage_events w g msg
          rw [hup] at hue
          simp at hue
          cases ures with
          | error e =>
              simp [send, hsz, hres, hup] at hmem
              rcases hmem with hmem | hmem
              · rcases htr1 with h | h <;> rw [h] at hmem <;> simp at hmem
              · have := hue _ hmem; simp [isUploadEv] at this
          | ok trip =>
              rcases trip with ⟨mr, thr, g'⟩
              have hmem2 : NetEvent.submit tid env ∈ tr1 ++ tr2 ++
                  [NetEvent.submit toId (toBytesLE 24 g'.counter ++
                    box sk pk g'.counter
                      (encodeMessage (mkPayload msg mr thr)))] := by
                by_cases hsub : w.submitOk <;>
                  simpa [send, hsz, hres, hup, encrypt, fresh, hsub] using hmem
              simp at hmem2
              rcases hmem2 with hmem2 | hmem2 | hmem2
              · rcases htr1 with h | h <;> rw [h] at hmem2 <;> simp at hmem2
              · have := hue _ hmem2; simp [isUploadEv] at this
              · exact ⟨pk, g'.counter, mr, thr, hmem2.2⟩

theorem wire_format_w :
    ∃ pk n mr thr,
      toBytesLE 24 0 ++ box sampleKeyA sampleKeyB 0
          (encodeMessage (.text [104])) =
        toBytesLE 24 n ++
          box sampleKeyA pk n (encodeMessage (mkPayload (.text [104]) mr thr)) :=
  wire_format.2 sampleKeyA "ECHOECHO" (.literal sampleKeyB) (.text [104]) []
    sampleWorld ⟨0⟩ "ECHOECHO"
    (toBytesLE 24 0 ++ box sampleKeyA sampleKeyB 0 (encodeMessage (.text [104])))
    (by decide)

/-- C5: sending a File message carrying both a main file and a thumbnail
performs exactly two blob uploads, the thumbnail first and then the main
content, both before the single final submission call (the key-resolution
trace contains no upload and no submission); and if submission fails after
the uploads succeeded, `send()` reports `SubmissionFailed` and the state
machine reaches `Failed`, not `Submitted`. -/
theorem file_thumbnail_upload_order (sk pk : Key) (toId : String)
    (hint : KeyHint) (data tdata : Bytes) (mime : String)
    (cap : Option Bytes) (rt : Option RenderingType)
    (cache c' : KeyCache) (tr1 : List NetEvent) (w : World) (g : Rand)
    (hsz : ¬ w.maxMessageSize <
      encodedSize (.file data (some tdata) mime cap rt))
    (hres : resolve hint toId cache w = (.ok pk, c', tr1))
    (hd : ¬ w.blobLimit < data.length) (ht : ¬ w.blobLimit < tdata.length)
    (hup : w.uploadOk = true) :
    (send sk toId hint (.file data (some tdata) mime cap rt)
        cache w g).trace =
      tr1 ++ [.blobUpload (encSym (toBytesLE 32 g.counter) tdata),
              .blobUpload (encSym (toBytesLE 32 (g.counter + 1)) data),
              .submit toId (toBytesLE 24 (g.counter + 1 + 1) ++
                box sk pk (g.counter + 1 + 1)
                  (encodeMessage
                    (mkPayload (.file data (some tdata) mime cap rt)
                      ⟨toBytesLE 16 (w.nextBlobId + 1),
                        toBytesLE 32 (g.counter + 1), data.length⟩
                      ⟨toBytesLE 16 w.nextBlobId,
                        toBytesLE 32 g.counter, tdata.length⟩)))] ∧
    (∀ e ∈ tr1, isUploadEv e = false ∧ isSubmitEv e = false) ∧
    (w.submitOk = false →
      (send sk toId hint (.file data (some tdata) mime cap rt)
          cache w g).result = .error .SubmissionFailed ∧
      (send sk toId hint (.file data (some tdata) mime cap rt)
          cache w g).final = .Failed) ∧
    (w.submitOk = true →
      (send sk toId hint (.file data (some tdata) mime cap rt)
          cache w g).final = .Submitted) := by
  have hu1 : upload1 w g w.nextBlobId tdata =
      (.ok (⟨toBytesLE 16 w.nextBlobId, toBytesLE 32 g.counter,
          tdata.length⟩, ⟨g.counter + 1⟩),
        [.blobUpload (encSym (toBytesLE 32 g.counter) tdata)]) := by
    simp [upload1, ht, hup, fresh]
  have hu2 : upload1 w ⟨g.counter + 1⟩ (w.nextBlobId + 1) data =
      (.ok (⟨toBytesLE 16 (w.nextBlobId + 1), toBytesLE 32 (g.counter + 1),
          data.length⟩, ⟨g.counter + 1 + 1⟩),
        [.blobUpload (encSym (toBytesLE 32 (g.counter + 1)) data)]) := by
    simp [upload1, hd, hup, fresh]
  have hus : uploadStage w g (.file data (some tdata) mime cap rt) =
      (.ok (⟨toBytesLE 16 (w.nextBlobId + 1), toBytesLE 32 (g.counter + 1),
          data.length⟩,
        ⟨toBytesLE 16 w.nextBlobId, toBytesLE 32 g.counter, tdata.length⟩,
        ⟨g.counter + 1 + 1⟩),
        [.blobUpload (encSym (toBytesLE 32 g.counter) tdata),
         .blobUpload (encSym (toBytesLE 32 (g.counter + 1)) data)]) := by
    simp [uploadStage, hu1, hu2]
  have htr1 := resolve_trace_shape hint toId cache w
  rw [hres] at htr1
  simp at htr1
  refine ⟨?_, ?_, ?_, ?_⟩
  · by_cases hsub : w.submitOk <;>
      simp [send, hsz, hres, hus, encrypt, fresh, hsub]
  · intro e he
    rcases htr1 with h | h
    · rw [h] at he; simp at he
    · rw [h] at he; simp at he; subst he; exact ⟨rfl, rfl⟩
  · intro hsub
    constructor <;> simp [send, hsz, hres, hus, encrypt, fresh, hsub]
  · intro hsub
    simp [send, hsz, hres, hus, encrypt, fresh, hsub]

theorem file_thumbnail_upload_order_w :
    (send sampleKeyA "ECHOECHO" (.literal sampleKeyB)
        (.file [10] (some [20]) "image/jpeg" none none)
        [] sampleWorldFail ⟨0⟩).trace =
      [] ++ [.blobUpload (encSym (toBytesLE 32 (Rand.mk 0).counter) [20]),
             .blobUpload (encSym (toBytesLE 32 ((Rand.mk 0).counter + 1)) [10]),
             .submit "ECHOECHO" (toBytesLE 24 ((Rand.mk 0).counter + 1 + 1) ++
               box sampleKeyA sampleKeyB ((Rand.mk 0).counter + 1 + 1)
                 (encodeMessage
                   (mkPayload (.file [10] (some [20]) "image/jpeg" none none)
                     ⟨toBytesLE 16 (sampleWorldFail.nextBlobId + 1),
                       toBytesLE 32 ((Rand.mk 0).counter + 1),
                       List.length [10]⟩
                     ⟨toBytesLE 16 sampleWorldFail.nextBlobId,
                       toBytesLE 32 (Rand.mk 0).counter,
                       List.length [20]⟩)))] ∧
    (∀ e ∈ ([] : List NetEvent), isUploadEv e = false ∧ isSubmitEv e = false) ∧
    (sampleWorldFail.submitOk = false →
      (send sampleKeyA "ECHOECHO" (.literal sampleKeyB)
          (.file [10] (some [20]) "image/jpeg" none none)
          [] sampleWorldFail ⟨0⟩).result = .error .SubmissionFailed ∧
      (send sampleKeyA "ECHOECHO" (.literal sampleKeyB)
          (.file [10] (some [20]) "image/jpeg" none none)
          [] sampleWorldFail ⟨0⟩).final = .Failed) ∧
    (sampleWorldFail.submitOk = true →
      (send sampleKeyA "ECHOECHO" (.literal sampleKeyB)
          (.file [10] (some [20]) "image/jpeg" none none)
          [] sampleWorldFail ⟨0⟩).final = .Submitted) :=
  file_thumbnail_upload_order sampleKeyA sampleKeyB "ECHOECHO"
    (.literal sampleKeyB) [10] [20] "image/jpeg" none none [] [] []
    sampleWorldFail ⟨0⟩ (by decide) (by decide) (by decide) (by decide)
    (by decide)

theorem upload1_error_kinds (w : World) (g : Rand) (idNum : Nat)
    (data : Bytes) (e : GError) (tr : List NetEvent)
    (h : upload1 w g idNum data = (.error e, tr)) :
    e = .BlobTooLarge ∨ e = .UploadFailed := by
  by_cases h1 : w.blobLimit < data.length
  · simp [upload1, h1] at h
    exact Or.inl h.1.symm
  · by_cases h2 : w.uploadOk <;> simp [upload1, h1, h2, fresh] at h
    exact Or.inr h.1.symm

theorem uploadStage_error_kinds (w : World) (g : Rand) (msg : MessageSpec)
    (e : GError) (tr : List NetEvent)
    (h : uploadStage w g msg = (.error e, tr)) :
    e = .BlobTooLarge ∨ e = .UploadFailed := by
  cases msg with
  | text t => simp [uploadStage] at h
  | image d =>
      rcases h1 : upload1 w g w.nextBlobId d with ⟨res, tr0⟩
      cases res with
      | error e0 =>
          simp [uploadStage, h1] at h
          exact h.1 ▸ upload1_error_kinds w g w.nextBlobId d e0 tr0 h1
      | ok pr => simp [uploadStage, h1] at h
  | video dur d th =>
      rcases h1 : upload1 w g w.nextBlobId th with ⟨res1, tr0⟩
      cases res1 with
      | error e0 =>
          simp [uploadStage, h1] at h
          exact h.1 ▸ upload1_error_kinds w g w.nextBlobId th e0 tr0 h1
      | ok pr =>
          rcases pr with ⟨thr, g'⟩
          rcases h2 : upload1 w g' (w.nextBlobId + 1) d with ⟨res2, tr2⟩
          cases res2 with
          | error e0 =>
              simp [uploadStage, h1, h2] at h
              exact h.1 ▸
                upload1_error_kinds w g' (w.nextBlobId + 1) d e0 tr2 h2
          | ok pr2 => simp [uploadStage, h1, h2] at h
  | file d th mime cap rt =>
      cases th with
      | none =>
          rcases h1 : upload1 w g w.nextBlobId d with ⟨res, tr0⟩
          cases res with
          | error e0 =>
              simp [uploadStage, h1] at h
              exact h.1 ▸ upload1_error_kinds w g w.nextBlobId d e0 tr0 h1
          | ok pr => simp [uploadStage, h1] at h
      | some t =>
          rcases h1 : upload1 w g w.nextBlobId t with ⟨res1, tr0⟩
          cases res1 with
          | error e0 =>
              simp [uploadStage, h1] at h
              exact h.1 ▸ upload1_error_kinds w g w.nextBlobId t e0 tr0 h1
          | ok pr =>
              rcases pr with ⟨thr, g'⟩
              rcases h2 : upload1 w g' (w.nextBlobId + 1) d with ⟨res2, tr2⟩
              cases res2 with
              | error e0 =>
                  simp [uploadStage, h1, h2] at h
                  exact h.1 ▸
                    upload1_error_kinds w g' (w.nextBlobId + 1) d e0 tr2 h2
              | ok pr2 => simp [uploadStage, h1, h2] at h

/-- C9: every failure at any state of the send pipeline is terminal — the
outcome is `Failed` exactly when a typed error is returned and `Submitted`
exactly when a message id is returned, every returned error lies under the
`GatewayError` umbrella, key lookup and submission are each attempted at
most once, blob upload at most once per blob field (no internal retry), a
failure other than `SubmissionFailed` means submission was never attempted,
and a failure at validation or key resolution means no blob was ever
uploaded. -/
theorem send_failure_terminal_single_attempt (sk : Key) (toId : String)
    (hint : KeyHint) (msg : MessageSpec) (cache : KeyCache) (w : World)
    (g : Rand) :
    ((∃ e, (send sk toId hint msg cache w g).result = .error e) ↔
      (send sk toId hint msg cache w g).final = .Failed) ∧
    ((∃ i, (send sk toId hint msg cache w g).result = .ok i) ↔
      (send sk toId hint msg cache w g).final = .Submitted) ∧
    (∀ e, (send sk toId hint msg cache w g).result = .error e →
      isGatewayError e = true) ∧
    ((send sk toId hint msg cache w g).trace.countP isLookupEv ≤ 1) ∧
    ((send sk toId hint msg cache w g).trace.countP isSubmitEv ≤ 1) ∧
    ((send sk toId hint msg cache w g).trace.countP isUploadEv ≤
      blobCount msg) ∧
    (∀ e, (send sk toId hint msg cache w g).result = .error e →
      e ≠ .SubmissionFailed →
      (send sk toId hint msg cache w g).trace.countP isSubmitEv = 0) ∧
    (∀ e, (send sk toId hint msg cache w g).result = .error e →
      (e = .UnknownIdentity ∨ e = .KeyMismatch ∨ e = .PayloadTooLarge) →
      (send sk toId hint msg cache w g).trace.countP isUploadEv = 0) := by
  by_cases hsz : w.maxMessageSize < encodedSize msg
  · have hr : send sk toId hint msg cache w g =
        ⟨.error .PayloadTooLarge, .Failed, [], cache, g⟩ := by
      simp [send, hsz]
    refine ⟨?_, ?_, ?_, ?_, ?_, ?_, ?_, ?_⟩ <;> simp [hr, isGatewayError]
  · rcases hres : resolve hint toId cache w with ⟨res, c', tr1⟩
    have htr1 := resolve_trace_shape hint toId cache w
    rw [hres] at htr1
    simp at htr1
    have hLk1 : tr1.countP isLookupEv ≤ 1 := by
      rcases htr1 with h | h <;> simp [h, isLookupEv]
    have hSb1 : tr1.countP isSubmitEv = 0 := by
      rcases htr1 with h | h <;> simp [h, isSubmitEv]
    have hUp1 : tr1.countP isUploadEv = 0 := by
      rcases htr1 with h | h <;> simp [h, isUploadEv]
    cases res with
    | error e0 =>
        have hr : send sk toId hint msg cache w g =
            ⟨.error e0, .Failed, tr1, c', g⟩ := by
          simp [send, hsz, hres]
        refine ⟨?_, ?_, ?_, ?_, ?_, ?_, ?_, ?_⟩ <;>
          simp [hr, isGatewayError, hLk1, hSb1, hUp1]
    | ok pk =>
        rcases hup : uploadStage w g msg with ⟨ures, tr2⟩
        have hue := uploadStage_events w g msg
        have hul := uploadStage_len w g msg
        rw [hup] at hue hul
        simp at hue hul
        have hSb2 : tr2.countP isSubmitEv = 0 :=
          List.countP_eq_zero.mpr fun e he => by
            have := hue e he; cases e <;> simp_all [isUploadEv, isSubmitEv]
        have hLk2 : tr2.countP isLookupEv = 0 :=
          List.countP_eq_zero.mpr fun e he => by
            have := hue e he; cases e <;> simp_all [isUploadEv, isLookupEv]
        have hUp2 : tr2.countP isUploadEv ≤ blobCount msg :=
          le_trans (List.countP_le_length isUploadEv) hul
        cases ures with
        | error e0 =>
            have hr : send sk toId hint msg cache w g =
                ⟨.error e0, .Failed, tr1 ++ tr2, c', g⟩ := by
              simp [send, hsz, hres, hup]
            have hkind := uploadStage_error_kinds w g msg e0 tr2 hup
            refine ⟨?_, ?_, ?_, ?_, ?_, ?_, ?_, ?_⟩ <;>
              simp [hr, isGatewayError, hLk1, hSb1, hUp1, hLk2, hSb2, hUp2]
            intro hkk
            rcases hkind with h | h <;> rcases hkk with hk | hk | hk <;>
              simp_all
        | ok trip =>
            rcases trip with ⟨mr, thr, g'⟩
            by_cases hsub : w.submitOk
            · have hr : send sk toId hint msg cache w g =
                  ⟨.ok w.msgId, .Submitted,
                    tr1 ++ tr2 ++ [.submit toId (toBytesLE 24 g'.counter ++
                      box sk pk g'.counter
                        (encodeMessage (mkPayload msg mr thr)))],
                    c', ⟨g'.counter + 1⟩⟩ := by
                simp [send, hsz, hres, hup, encrypt, fresh, hsub]
              refine ⟨?_, ?_, ?_, ?_, ?_, ?_, ?_, ?_⟩ <;>
                simp [hr, isGatewayError, hLk1, hSb1, hUp1, hLk2, hSb2,
                  hUp2, isLookupEv, isSubmitEv, isUploadEv]
            · have hr : send sk toId hint msg cache w g =
                  ⟨.error .SubmissionFailed, .Failed,
                    tr1 ++ tr2 ++ [.submit toId (toBytesLE 24 g'.counter ++
                      box sk pk g'.counter
                        (encodeMessage (mkPayload msg mr thr)))],
                    c', ⟨g'.counter + 1⟩⟩ := by
                simp [send, hsz, hres, hup, encrypt, fresh, hsub]
              refine ⟨?_, ?_, ?_, ?_, ?_, ?_, ?_, ?_⟩ <;>
                simp [hr, isGatewayError, hLk1, hSb1, hUp1, hLk2, hSb2,
                  hUp2, isLookupEv, isSubmitEv, isUploadEv]

theorem send_failure_terminal_single_attempt_w :
    (send sampleKeyA "ECHOECHO" (.literal sampleKeyB) (.text [104]) []
        sampleWorldFail ⟨0⟩).final = .Failed :=
  (send_failure_terminal_single_attempt sampleKeyA "ECHOECHO"
      (.literal sampleKeyB) (.text [104]) [] sampleWorldFail ⟨0⟩).1.mp
    ⟨.SubmissionFailed, by decide⟩

end ThreemaGateway
